import Mathlib

/-!
Verification of `src/examples/javascript-large/src/scripts/analyzer.cpp`.

The C++ class `Analyzer` holds a `std::string name` and a `std::vector<int> data`,
offers `addData(int)` (push_back), `calculateAverage()` (0.0 on empty data,
otherwise the sum of the samples, each widened to `double`, divided by the count)
and `printReport()` (two lines on `std::cout`).

Embedding choices:
- `int` samples become `Int`; the `double` accumulator and result become `ℚ`
  (exact rational arithmetic; IEEE rounding is abstracted away, which is exact
  for all the concrete values considered here).
- `std::cout` output is modelled as the `String` the call emits; `std::endl`
  is the line break `"\n"`. The default `operator<<(std::ostream, double)`
  rendering (precision 6, general format, trailing zeros suppressed) is
  modelled by `ostreamDouble` below.
- The `const` qualifiers of `calculateAverage`/`printReport` are reflected by
  a small operation language `Op` with an explicit state-passing semantics
  `Analyzer.exec`.
-/

/-- State of the C++ `Analyzer` object: the private fields `name` and `data`. -/
structure Analyzer where
  name : String
  data : List Int
  deriving DecidableEq, Repr

/-- `Analyzer(const std::string& name) : name(name) {}` — empty sample vector. -/
def Analyzer.construct (name : String) : Analyzer :=
  { name := name, data := [] }

/-- `void addData(int value) { data.push_back(value); }` -/
def Analyzer.addData (a : Analyzer) (value : Int) : Analyzer :=
  { a with data := a.data ++ [value] }

/-- `double calculateAverage() const` — 0.0 if `data` is empty, else the
running `double sum` accumulated over the samples divided by `data.size()`. -/
def Analyzer.calculateAverage (a : Analyzer) : ℚ :=
  if a.data.isEmpty then 0
  else
    let sum : ℚ := a.data.foldl (fun (s : ℚ) (v : Int) => s + (v : ℚ)) 0
    sum / (a.data.length : ℚ)

/-- Whether `10^e ≤ n/d` for positive naturals `n`, `d` (integer arithmetic only). -/
def decExpLe (n d : Nat) (e : ℤ) : Bool :=
  if 0 ≤ e then decide (10 ^ e.toNat * d ≤ n) else decide (d ≤ n * 10 ^ (-e).toNat)

/-- Decimal exponent of the positive rational `n/d`: the `e` with
`10^e ≤ n/d < 10^(e+1)`. Starts from the decimal digit counts of `n` and `d`
and adjusts downward. -/
def ratDecExp (n d : Nat) : ℤ :=
  let e0 : ℤ := ((Nat.toDigits 10 n).length : ℤ) - ((Nat.toDigits 10 d).length : ℤ)
  if decExpLe n d (e0 + 1) then e0 + 1
  else if decExpLe n d e0 then e0
  else if decExpLe n d (e0 - 1) then e0 - 1
  else e0 - 2

/-- `n/d` scaled to 6 significant decimal digits (`(n/d) * 10^(5-e)`), rounded
to the nearest integer with ties to even. -/
def roundSig (n d : Nat) (e : ℤ) : Nat :=
  let nn := n * 10 ^ (5 - e).toNat
  let dd := d * 10 ^ (e - 5).toNat
  let q0 := nn / dd
  let r := nn % dd
  if 2 * r < dd then q0
  else if dd < 2 * r then q0 + 1
  else if q0 % 2 = 0 then q0 else q0 + 1

/-- Drop trailing decimal zeros of a positive numeral (fuel-bounded). -/
def stripTrailingZeros : Nat → Nat → Nat
  | 0, m => m
  | fuel + 1, m => if m % 10 = 0 && 10 ≤ m then stripTrailingZeros fuel (m / 10) else m

/-- Fixed-point rendering of the significant digits `ds` at decimal exponent `e`. -/
def fixedFormat (ds : String) (e : ℤ) : String :=
  let k : ℤ := (ds.length : ℤ)
  if k - 1 ≤ e then
    ds ++ String.mk (List.replicate (e - (k - 1)).toNat '0')
  else if 0 ≤ e then
    let cs := ds.toList
    String.mk (cs.take (e + 1).toNat) ++ "." ++ String.mk (cs.drop (e + 1).toNat)
  else
    "0." ++ String.mk (List.replicate (-e - 1).toNat '0') ++ ds

/-- Scientific rendering of the significant digits `ds` at decimal exponent `e`. -/
def sciFormat (ds : String) (e : ℤ) : String :=
  let cs := ds.toList
  let mant := if ds.length = 1 then ds
    else String.mk (cs.take 1) ++ "." ++ String.mk (cs.drop 1)
  let es := toString e.natAbs
  let es2 := if es.length < 2 then "0" ++ es else es
  mant ++ "e" ++ (if e < 0 then "-" else "+") ++ es2

/-- Rendering of the positive rational `n/d` in the default `std::ostream`
style: 6 significant digits, trailing zeros suppressed, scientific form
outside `[1e-4, 1e6)`. -/
def ostreamPos (n d : Nat) : String :=
  let e1 := ratDecExp n d
  let m1 := roundSig n d e1
  let me := if m1 = 10 ^ 6 then (10 ^ 5, e1 + 1) else (m1, e1)
  let ds := toString (stripTrailingZeros 7 me.1)
  if -4 ≤ me.2 ∧ me.2 < 6 then fixedFormat ds me.2
  else sciFormat ds me.2

/-- Default `std::ostream` rendering of a `double` (here: of the ℚ standing
for it), dispatching on sign and delegating to `ostreamPos` on `|q|`. -/
def ostreamDouble (q : ℚ) : String :=
  if q.num = 0 then "0"
  else (if q.num < 0 then "-" else "") ++ ostreamPos q.num.natAbs q.den

/-- `void printReport() const` — the text the two `std::cout` statements emit. -/
def Analyzer.printReport (a : Analyzer) : String :=
  "Analyzer: " ++ a.name ++ "\n" ++ "Average: " ++ ostreamDouble a.calculateAverage ++ "\n"

/-- The public operations a caller can invoke on a constructed `Analyzer`. -/
inductive Op where
  | addData (value : Int)
  | calculateAverage
  | printReport
  deriving DecidableEq, Repr

/-- One method call: the resulting object state and the text written to stdout.
`calculateAverage` and `printReport` are `const` in the source, so their state
component is the unchanged receiver; `calculateAverage` hands its ℚ result to
the caller and writes nothing. -/
def Analyzer.exec (a : Analyzer) : Op → Analyzer × String
  | .addData v => (a.addData v, "")
  | .calculateAverage => (a, "")
  | .printReport => (a, a.printReport)

/-- Run a sequence of method calls, collecting each call's output. -/
def Analyzer.execAll (a : Analyzer) : List Op → Analyzer × List String
  | [] => (a, [])
  | op :: ops =>
    let step := a.exec op
    let rest := step.1.execAll ops
    (rest.1, step.2 :: rest.2)

/-- A sequence of `addData` calls, one per list element, in order. -/
def Analyzer.addAll (a : Analyzer) (l : List Int) : Analyzer :=
  l.foldl Analyzer.addData a

/-- `calculateAverage` with the division made explicit as a fallible step:
`none` exactly when the divisor `data.size()` is zero on the division path. -/
def Analyzer.calculateAverageChecked (a : Analyzer) : Option ℚ :=
  if a.data.isEmpty then some 0
  else if (a.data.length : ℚ) = 0 then none
  else some ((a.data.foldl (fun (s : ℚ) (v : Int) => s + (v : ℚ)) 0) / (a.data.length : ℚ))

-- Basic lemmas about the embedding.

lemma foldl_add_cast (l : List Int) (s : ℚ) :
    l.foldl (fun (acc : ℚ) (v : Int) => acc + (v : ℚ)) s = s + (l.map (fun (v : Int) => (v : ℚ))).sum := by
  induction l generalizing s with
  | nil => simp
  | cons x xs ih =>
    rw [List.foldl_cons, List.map_cons, List.sum_cons, ih]
    ring

lemma addAll_data (a : Analyzer) (l : List Int) : (a.addAll l).data = a.data ++ l := by
  induction l generalizing a with
  | nil => simp [Analyzer.addAll]
  | cons x xs ih =>
    simp [Analyzer.addAll, List.foldl_cons] at *
    simp [ih, Analyzer.addData]

lemma addAll_name (a : Analyzer) (l : List Int) : (a.addAll l).name = a.name := by
  induction l generalizing a with
  | nil => rfl
  | cons x xs ih =>
    simp [Analyzer.addAll, List.foldl_cons] at *
    simp [ih, Analyzer.addData]

lemma calculateAverage_eq (a : Analyzer) (h : a.data ≠ []) :
    a.calculateAverage = (a.data.map (fun (v : Int) => (v : ℚ))).sum / (a.data.length : ℚ) := by
  have hE : a.data.isEmpty = false := by
    cases hd : a.data with
    | nil => exact absurd hd h
    | cons x xs => rfl
  unfold Analyzer.calculateAverage
  simp only [hE, Bool.false_eq_true, if_false, foldl_add_cast, zero_add]

lemma construct_addAll_data (name : String) (l : List Int) :
    ((Analyzer.construct name).addAll l).data = l := by
  rw [addAll_data]
  rfl

lemma average_addAll (name : String) (l : List Int) (h : l ≠ []) :
    ((Analyzer.construct name).addAll l).calculateAverage
      = (l.map (fun (v : Int) => (v : ℚ))).sum / (l.length : ℚ) := by
  have hd := construct_addAll_data name l
  rw [calculateAverage_eq _ (by rw [hd]; exact h), hd]

-- Claim theorems.

/-- C1: for every nonempty finite sequence of integers added via `addData`
(in any number of calls), `calculateAverage` returns the sum of those
integers, each widened before summation, divided by their count (the empty
sequence falls under the explicit 0.0 rule of C2). -/
theorem average_is_sum_div_count (name : String) (l : List Int) (h : l ≠ []) :
    ((Analyzer.construct name).addAll l).calculateAverage
      = (l.map (fun (v : Int) => (v : ℚ))).sum / (l.length : ℚ) :=
  average_addAll name l h

/-- Witness for C1 at name `"w"` and samples `[7]`. -/
theorem average_is_sum_div_count_witness :
    ([(7 : Int)] ≠ []) ∧
      ((Analyzer.construct "w").addAll [7]).calculateAverage
        = (([(7 : Int)].map (fun (v : Int) => (v : ℚ))).sum / (([(7 : Int)].length : ℚ))) :=
  ⟨by decide, average_is_sum_div_count "w" [7] (by decide)⟩

/-- C2: for every `Analyzer` whose sample sequence is empty (in particular a
freshly constructed one), `calculateAverage` returns exactly 0, with no error
signalled. -/
theorem average_empty_is_zero (a : Analyzer) (h : a.data = []) :
    a.calculateAverage = 0 := by
  simp [Analyzer.calculateAverage, h]

/-- Witness for C2 at the freshly constructed `Analyzer` named `"Sensor-A"`. -/
theorem average_empty_is_zero_witness :
    (Analyzer.construct "Sensor-A").data = [] ∧
      (Analyzer.construct "Sensor-A").calculateAverage = 0 :=
  ⟨rfl, average_empty_is_zero (Analyzer.construct "Sensor-A") rfl⟩

/-- C3: adding the same multiset of samples in either order via `addData`
yields the same `calculateAverage` result. -/
theorem average_perm_invariant (name : String) (l1 l2 : List Int) (h : l1.Perm l2) :
    ((Analyzer.construct name).addAll l1).calculateAverage
      = ((Analyzer.construct name).addAll l2).calculateAverage := by
  by_cases h1 : l1 = []
  · subst h1
    have h2 : l2 = [] := List.Perm.eq_nil h.symm
    subst h2
    rfl
  · have h2 : l2 ≠ [] := fun hh => h1 (List.Perm.eq_nil (hh ▸ h))
    rw [average_addAll name l1 h1, average_addAll name l2 h2,
      List.Perm.sum_eq (h.map (fun (v : Int) => (v : ℚ))), h.length_eq]

/-- Witness for C3 at name `"w"` and the two orderings `[1, 2]` and `[2, 1]`. -/
theorem average_perm_invariant_witness :
    ([1, 2] : List Int).Perm [2, 1] ∧
      ((Analyzer.construct "w").addAll [1, 2]).calculateAverage
        = ((Analyzer.construct "w").addAll [2, 1]).calculateAverage :=
  ⟨List.Perm.swap 2 1 [], average_perm_invariant "w" [1, 2] [2, 1] (List.Perm.swap 2 1 [])⟩

/-- C4: `printReport` writes exactly two line-break-terminated lines —
`"Analyzer: "` followed by the name, then `"Average: "` followed by the
current average under default floating-point formatting — and on the
`"Sensor-C"` analyzer with samples 1, 2 the output is exactly
`"Analyzer: Sensor-C\nAverage: 1.5\n"`. -/
theorem printReport_two_lines :
    (∀ a : Analyzer, a.printReport
      = "Analyzer: " ++ a.name ++ "\n" ++ "Average: " ++ ostreamDouble a.calculateAverage ++ "\n")
    ∧ (((Analyzer.construct "Sensor-C").addData 1).addData 2).printReport
      = "Analyzer: Sensor-C\nAverage: 1.5\n" := by
  constructor
  · intro a
    rfl
  · have hq : (((Analyzer.construct "Sensor-C").addData 1).addData 2).calculateAverage
        = mkRat 3 2 := by
      simp [Analyzer.calculateAverage, Analyzer.construct, Analyzer.addData, Rat.mkRat_eq_div]
      norm_num
    unfold Analyzer.printReport
    rw [hq]
    decide

/-- C5: `addData value` appends exactly `value` at the end of the sample
sequence — the name and all previously stored samples are unchanged and the
length grows by exactly one. -/
theorem addData_appends (a : Analyzer) (v : Int) :
    (a.addData v).name = a.name
    ∧ (a.addData v).data = a.data ++ [v]
    ∧ (a.addData v).data.length = a.data.length + 1 := by
  refine ⟨rfl, rfl, ?_⟩
  simp [Analyzer.addData]

/-- C6: every operation is total — in particular the one fallible-looking
step, the division in `calculateAverage`, is guarded by the empty check and
never divides by zero: the checked variant always returns `some` of the
unchecked result. -/
theorem operations_never_fail (a : Analyzer) :
    a.calculateAverageChecked = some a.calculateAverage := by
  cases hd : a.data with
  | nil =>
    simp [Analyzer.calculateAverageChecked, Analyzer.calculateAverage, hd]
  | cons x xs =>
    have hlen : ((xs.length : ℚ)) + 1 ≠ 0 := by positivity
    simp [Analyzer.calculateAverageChecked, Analyzer.calculateAverage, hd, hlen]

/-- C7: calling `printReport` any number of times with no intervening
`addData` produces identical output on every call. -/
theorem printReport_idempotent (a : Analyzer) (n : Nat) :
    (a.execAll (List.replicate n Op.printReport)).2 = List.replicate n a.printReport := by
  induction n with
  | zero => rfl
  | succ k ih =>
    simp [List.replicate_succ, Analyzer.execAll, Analyzer.exec, ih]

/-- C8: the sample sequence is append-only — under any sequence of
operations the name is unchanged, the sample length never decreases, and the
old samples survive unremoved, unmodified and in order at the front of the
new sequence. -/
theorem samples_append_only (ops : List Op) (a : Analyzer) :
    (a.execAll ops).1.name = a.name
    ∧ a.data.length ≤ (a.execAll ops).1.data.length
    ∧ ∃ t, (a.execAll ops).1.data = a.data ++ t := by
  induction ops generalizing a with
  | nil => exact ⟨rfl, le_refl _, [], by simp [Analyzer.execAll]⟩
  | cons op rest ih =>
    cases op with
    | addData v =>
      obtain ⟨hn, hl, t, ht⟩ := ih (a.addData v)
      refine ⟨hn, ?_, [v] ++ t, ?_⟩
      · simp only [Analyzer.execAll, Analyzer.exec]
        calc a.data.length ≤ (a.addData v).data.length := by simp [Analyzer.addData]
          _ ≤ _ := hl
      · simp only [Analyzer.execAll, Analyzer.exec]
        rw [ht]
        simp [Analyzer.addData]
    | calculateAverage =>
      obtain ⟨hn, hl, t, ht⟩ := ih a
      exact ⟨hn, hl, t, ht⟩
    | printReport =>
      obtain ⟨hn, hl, t, ht⟩ := ih a
      exact ⟨hn, hl, t, ht⟩

/-- C9: the `"Sensor-B"` analyzer with samples 10, 20, 30 added in that
order averages exactly 20. -/
theorem sensorB_average :
    ((((Analyzer.construct "Sensor-B").addData 10).addData 20).addData 30).calculateAverage
      = 20 := by
  simp [Analyzer.calculateAverage, Analyzer.construct, Analyzer.addData]
  norm_num

/-- C10: the `const` queries `calculateAverage` and `printReport` leave the
`Analyzer` state — name and sample sequence — exactly as it was. -/
theorem const_queries_preserve_state (a : Analyzer) :
    (a.exec Op.calculateAverage).1 = a ∧ (a.exec Op.printReport).1 = a :=
  ⟨rfl, rfl⟩
